import Mathlib

/-!
Verification development for the go-claude-code process transport and
streaming protocol layer.  The Go source (package pkg) is shallowly
embedded: newline-delimited JSON frames become an inductive `Line` over a
JSON value type, the message codec (`messageParser` /
`AssistantMessage.UnmarshalJSON` / `parseMessage`) becomes decode
functions, and the stateful transport loops (`readMessages`,
`readStderr`, `sendInterrupt`, `close`) become explicit state-passing
functions over lists of inbound events.
-/

namespace GoClaude

/-- JSON values, the result of Go `json.Unmarshal` on one wire line.
Numbers are rationals (Go float64 payloads such as costs never matter to
the claims beyond their presence). Object fields are an association list
in source order. -/
inductive Json where
  | null
  | bool (b : Bool)
  | num (q : Rat)
  | str (s : String)
  | arr (elems : List Json)
  | obj (fields : List (String × Json))
deriving Repr

/-- Look up a top-level object field, as Go struct unmarshalling does for
a tagged field (first occurrence). -/
def Json.getField (fields : List (String × Json)) (key : String) : Option Json :=
  match fields with
  | [] => none
  | (k, v) :: rest => if k = key then some v else Json.getField rest key

/-- Go `json.Unmarshal` of any JSON value into a struct: succeeds on an
object (fields available) and on `null` (struct left at its zero value,
modelled as no fields); fails on any other shape. -/
def Json.asObjFields : Json → Except Unit (List (String × Json))
  | .obj fields => .ok fields
  | .null => .ok []
  | _ => .error ()

/-- Go unmarshalling of a `string` struct field: absent or `null` leaves
the zero value `""`; a JSON string is taken verbatim; any other shape is
an unmarshal error. -/
def strField (fields : List (String × Json)) (key : String) : Except Unit String :=
  match Json.getField fields key with
  | none => .ok ""
  | some .null => .ok ""
  | some (.str s) => .ok s
  | some _ => .error ()

/-- Go unmarshalling of a `bool` struct field. -/
def boolField (fields : List (String × Json)) (key : String) : Except Unit Bool :=
  match Json.getField fields key with
  | none => .ok false
  | some .null => .ok false
  | some (.bool b) => .ok b
  | some _ => .error ()

/-- Go unmarshalling of an `int` struct field: only integral JSON numbers
succeed. -/
def intField (fields : List (String × Json)) (key : String) : Except Unit Int :=
  match Json.getField fields key with
  | none => .ok 0
  | some .null => .ok 0
  | some (.num q) => if q.den = 1 then .ok q.num else .error ()
  | some _ => .error ()

/-- Go unmarshalling of a `float64` struct field. -/
def ratField (fields : List (String × Json)) (key : String) : Except Unit Rat :=
  match Json.getField fields key with
  | none => .ok 0
  | some .null => .ok 0
  | some (.num q) => .ok q
  | some _ => .error ()

/-- Go unmarshalling of an `interface\x7b\x7d` struct field: any JSON value
succeeds; absent leaves the interface nil. -/
def anyField (fields : List (String × Json)) (key : String) : Option Json :=
  Json.getField fields key

/-- Go unmarshalling of a `map[string]interface\x7b\x7d` struct field
(`ToolUseBlock.Input`). -/
def mapField (fields : List (String × Json)) (key : String) :
    Except Unit (List (String × Json)) :=
  match Json.getField fields key with
  | none => .ok []
  | some .null => .ok []
  | some (.obj kvs) => .ok kvs
  | some _ => .error ()

/-- Go unmarshalling of a `[]json.RawMessage` struct field
(`AssistantMessage` content array): `null` or absent gives the nil
slice, an array keeps its raw elements, anything else errors. -/
def rawArrField (fields : List (String × Json)) (key : String) :
    Except Unit (List Json) :=
  match Json.getField fields key with
  | none => .ok []
  | some .null => .ok []
  | some (.arr xs) => .ok xs
  | some _ => .error ()

/-- Content blocks of an assistant message (source: `TextBlock`,
`ToolUseBlock`, `ToolResultBlock`). Opaque payloads stay as `Json`. -/
inductive ContentBlock where
  | text (ty : String) (txt : String)
  | toolUse (ty : String) (id : String) (name : String) (input : List (String × Json))
  | toolResult (ty : String) (toolUseId : String) (isError : Bool) (content : Option Json)
deriving Repr

/-- `ResultUsage` (source struct, integer token counters). -/
structure ResultUsage where
  inputTokens : Int
  outputTokens : Int
  backgroundTokens : Int
  cacheCreationTokens : Int
  cacheReadTokens : Int
deriving Repr

/-- `ResultCost` (source struct, float64 cost breakdown). -/
structure ResultCost where
  inputTokenCost : Rat
  outputTokenCost : Rat
  backgroundTokenCost : Rat
  cacheCreationCost : Rat
  cacheReadCost : Rat
  totalCost : Rat
deriving Repr

/-- `ResultMessageData` (source struct). -/
structure ResultMessageData where
  usage : ResultUsage
  cost : ResultCost
  sessionId : String
  interruptRequested : Bool
deriving Repr

/-- The `Message` interface: one constructor per concrete implementation
(`UserMessage`, `AssistantMessage`, `SystemMessage`, `ResultMessage`).
The Go code pushes `AssistantMessage` behind a pointer and the others by
value; the inductive erases that distinction, which only matters for the
type switches that are modelled explicitly below. -/
inductive Message where
  | user (role : String) (content : String)
  | assistant (role : String) (content : List ContentBlock)
  | system (role : String) (subtype : String) (data : Option Json)
  | result (role : String) (data : ResultMessageData)
deriving Repr

/-- The anonymous `typeCheck` peek inside `AssistantMessage.UnmarshalJSON`:
unmarshal the raw block into `struct \x7b Type string \x7d`; an error means
the block is skipped (`continue`). -/
def decodeTypeCheck (raw : Json) : Except Unit String := do
  let fields ← raw.asObjFields
  strField fields "type"

/-- Unmarshal one raw content element as a `TextBlock`. -/
def decodeTextBlock (raw : Json) : Except Unit ContentBlock := do
  let fields ← raw.asObjFields
  let ty ← strField fields "type"
  let txt ← strField fields "text"
  .ok (.text ty txt)

/-- Unmarshal one raw content element as a `ToolUseBlock`. -/
def decodeToolUseBlock (raw : Json) : Except Unit ContentBlock := do
  let fields ← raw.asObjFields
  let ty ← strField fields "type"
  let id ← strField fields "id"
  let name ← strField fields "name"
  let input ← mapField fields "input"
  .ok (.toolUse ty id name input)

/-- Unmarshal one raw content element as a `ToolResultBlock`. -/
def decodeToolResultBlock (raw : Json) : Except Unit ContentBlock := do
  let fields ← raw.asObjFields
  let ty ← strField fields "type"
  let tuid ← strField fields "tool_use_id"
  let isErr ← boolField fields "is_error"
  .ok (.toolResult ty tuid isErr (anyField fields "content"))

/-- The per-element body of the loop in `AssistantMessage.UnmarshalJSON`:
peek the `type` discriminator, dispatch, and yield `none` (skip) when the
peek fails, the discriminator is unknown, or the shaped unmarshal fails. -/
def decodeBlock (raw : Json) : Option ContentBlock :=
  match decodeTypeCheck raw with
  | .error _ => none
  | .ok ty =>
    match ty with
    | "text" =>
      match decodeTextBlock raw with
      | .ok b => some b
      | .error _ => none
    | "tool_use" =>
      match decodeToolUseBlock raw with
      | .ok b => some b
      | .error _ => none
    | "tool_result" =>
      match decodeToolResultBlock raw with
      | .ok b => some b
      | .error _ => none
    | _ => none

/-- The whole loop of `AssistantMessage.UnmarshalJSON` over the raw
content array: append each successfully decoded block, skip the rest. -/
def decodeBlocks : List Json → List ContentBlock
  | [] => []
  | raw :: rest =>
    match decodeBlock raw with
    | some b => b :: decodeBlocks rest
    | none => decodeBlocks rest

/-- `AssistantMessage.UnmarshalJSON`: unmarshal the auxiliary struct
(role via the alias, content as `[]json.RawMessage`), then run the
block-filtering loop. Only the outer shape can fail. -/
def decodeAssistantMessage (v : Json) : Except Unit Message := do
  let fields ← v.asObjFields
  let role ← strField fields "role"
  let raws ← rawArrField fields "content"
  .ok (.assistant role (decodeBlocks raws))

/-- Unmarshal a `UserMessage` (role and content are plain strings). -/
def decodeUserMessage (v : Json) : Except Unit Message := do
  let fields ← v.asObjFields
  let role ← strField fields "role"
  let content ← strField fields "content"
  .ok (.user role content)

/-- Unmarshal a `SystemMessage`: role, subtype, and an opaque
`interface\x7b\x7d` data payload that never fails. -/
def decodeSystemMessage (v : Json) : Except Unit Message := do
  let fields ← v.asObjFields
  let role ← strField fields "role"
  let subtype ← strField fields "subtype"
  .ok (.system role subtype (anyField fields "data"))

/-- Unmarshal a `ResultUsage` payload. -/
def decodeUsage (v : Json) : Except Unit ResultUsage := do
  let fields ← v.asObjFields
  let inp ← intField fields "inputTokens"
  let out ← intField fields "outputTokens"
  let bg ← intField fields "backgroundTokens"
  let cc ← intField fields "cacheCreationTokens"
  let cr ← intField fields "cacheReadTokens"
  .ok ⟨inp, out, bg, cc, cr⟩

/-- Unmarshal a `ResultCost` payload. -/
def decodeCost (v : Json) : Except Unit ResultCost := do
  let fields ← v.asObjFields
  let ic ← ratField fields "inputTokenCost"
  let oc ← ratField fields "outputTokenCost"
  let bc ← ratField fields "backgroundTokenCost"
  let ccc ← ratField fields "cacheCreationCost"
  let crc ← ratField fields "cacheReadCost"
  let tc ← ratField fields "totalCost"
  .ok ⟨ic, oc, bc, ccc, crc, tc⟩

/-- Zero value of `ResultUsage`, the Go default for an absent field. -/
def zeroUsage : ResultUsage := ⟨0, 0, 0, 0, 0⟩

/-- Zero value of `ResultCost`. -/
def zeroCost : ResultCost := ⟨0, 0, 0, 0, 0, 0⟩

/-- Unmarshal the nested struct field `data` of a `ResultMessage`. -/
def dataField (fields : List (String × Json)) (key : String)
    (dec : Json → Except Unit α) (zero : α) : Except Unit α :=
  match Json.getField fields key with
  | none => .ok zero
  | some v => dec v

/-- Unmarshal a `ResultMessage` (role plus structured data payload). -/
def decodeResultMessage (v : Json) : Except Unit Message := do
  let fields ← v.asObjFields
  let role ← strField fields "role"
  let dataFields ← dataField fields "data" Json.asObjFields []
  let usage ← dataField dataFields "usage" decodeUsage zeroUsage
  let cost ← dataField dataFields "cost" decodeCost zeroCost
  let sid ← strField dataFields "sessionId"
  let intr ← boolField dataFields "interruptRequested"
  .ok (.result role ⟨usage, cost, sid, intr⟩)

/-- Errors surfaced by the transport layer, following the source error
taxonomy (`CLIJSONDecodeError`, `MessageParseError`, interrupt-path
errors, context cancellation). -/
inductive TErr where
  | cliJsonDecode (raw : String)
  | messageParse (msgType : String)
  | ctxCanceled
  | interruptFailed (msg : String)
  | interruptTimeout
deriving Repr, DecidableEq

/-- The `message` payload of a stream frame is a `json.RawMessage`:
absent (`len(data) == 0`), the literal bytes `null`, or the literal
bytes `\x7b\x7d` make `messageParser.parseMessage` return no message and
no error. `Option Json` models the raw field; the exact-byte compare
against `\x7b\x7d` corresponds to the whitespace-free empty object. -/
def payloadEmpty : Option Json → Bool
  | none => true
  | some .null => true
  | some (.obj []) => true
  | _ => false

/-- `messageParser.parseMessage`: skip empty payloads, then dispatch on
the frame's `type` discriminator; unknown discriminators are a
`MessageParseError`. `.ok none` is the "no message produced" outcome. -/
def parseMessage (msgType : String) (payload : Option Json) :
    Except TErr (Option Message) :=
  if payloadEmpty payload then .ok none
  else
    match payload with
    | none => .ok none
    | some v =>
      match msgType with
      | "user" =>
        match decodeUserMessage v with
        | .ok m => .ok (some m)
        | .error _ => .error (.messageParse msgType)
      | "assistant" =>
        match decodeAssistantMessage v with
        | .ok m => .ok (some m)
        | .error _ => .error (.messageParse msgType)
      | "system" =>
        match (do
            let fields ← v.asObjFields
            strField fields "subtype" : Except Unit String) with
        | .error _ => .error (.messageParse msgType)
        | .ok subtype =>
          if subtype = "result" then
            match decodeResultMessage v with
            | .ok m => .ok (some m)
            | .error _ => .error (.messageParse msgType)
          else
            match decodeSystemMessage v with
            | .ok m => .ok (some m)
            | .error _ => .error (.messageParse msgType)
      | _ => .error (.messageParse msgType)

/-- A `ControlResponse` frame (flattened nested `response` struct). -/
structure ControlResponse where
  type : String
  requestId : String
  success : Bool
  error : String
deriving Repr, DecidableEq

/-- Unmarshal the nested anonymous `response` struct of a
`ControlResponse`. -/
def decodeCtrlRespBody (fields : List (String × Json)) :
    Except Unit (Bool × String) :=
  match Json.getField fields "response" with
  | none => .ok (false, "")
  | some v => do
    let inner ← v.asObjFields
    let ok ← boolField inner "success"
    let err ← strField inner "error"
    .ok (ok, err)

/-- `messageParser.parseControlResponse`. -/
def decodeControlResponse (v : Json) : Except Unit ControlResponse := do
  let fields ← v.asObjFields
  let ty ← strField fields "type"
  let rid ← strField fields "request_id"
  let body ← decodeCtrlRespBody fields
  .ok ⟨ty, rid, body.1, body.2⟩

/-- `messageParser.isControlResponse` on an already-unmarshalled value:
peek `struct \x7b Type string \x7d` and compare with the sentinel. -/
def isControlResponseJson (v : Json) : Bool :=
  match (do
      let fields ← v.asObjFields
      strField fields "type" : Except Unit String) with
  | .error _ => false
  | .ok ty => ty = "control_response"

/-- The `StreamMessage` envelope: `type` plus the raw `message` field. -/
structure StreamMsg where
  type : String
  message : Option Json
deriving Repr

/-- One line produced by the stdout scanner: zero bytes (skipped by the
reader), raw text that is not valid JSON, or a parsed JSON value. -/
inductive Line where
  | empty
  | malformed (raw : String)
  | json (v : Json)

/-- `json.Unmarshal` applied to the raw line bytes. -/
def Line.unmarshalled : Line → Option Json
  | .json v => some v
  | _ => none

/-- Raw text of a line, for decode-error reports. -/
def Line.raw : Line → String
  | .empty => ""
  | .malformed s => s
  | .json _ => "<json>"

/-- `messageParser.isControlResponse` on raw line bytes: an unmarshal
failure yields `false`. -/
def isControlResponseLine (l : Line) : Bool :=
  match l.unmarshalled with
  | none => false
  | some v => isControlResponseJson v

/-- `messageParser.parseStreamMessage`: unmarshal the line into the
`StreamMessage` envelope; any failure is a `CLIJSONDecodeError`
carrying the raw line. -/
def parseStreamMessageLine (l : Line) : Except TErr StreamMsg :=
  match l.unmarshalled with
  | none => .error (.cliJsonDecode l.raw)
  | some v =>
    match (do
        let fields ← v.asObjFields
        let ty ← strField fields "type"
        .ok (⟨ty, anyField fields "message"⟩ : StreamMsg) : Except Unit StreamMsg) with
    | .ok sm => .ok sm
    | .error _ => .error (.cliJsonDecode l.raw)

/-- `messageParser.parseControlResponse` on raw line bytes. -/
def parseControlResponseLine (l : Line) : Except TErr ControlResponse :=
  match l.unmarshalled with
  | none => .error (.cliJsonDecode l.raw)
  | some v =>
    match decodeControlResponse v with
    | .ok r => .ok r
    | .error _ => .error (.cliJsonDecode l.raw)

/-- Observable output of `transport.readMessages` on a stretch of input
lines: conversation messages pushed to `t.messages`, errors pushed to
`t.errors`, and control responses delivered to registered slots, each
recorded with the correlation-table key it was delivered under. -/
structure ReadOutput where
  messages : List Message
  errors : List TErr
  deliveries : List (String × ControlResponse)
deriving Repr

/-- Concatenation of two observable outputs. -/
def ReadOutput.append (a b : ReadOutput) : ReadOutput :=
  ⟨a.messages ++ b.messages, a.errors ++ b.errors, a.deliveries ++ b.deliveries⟩

/-- The body of the `for scanner.Scan()` loop in `transport.readMessages`
for one line, given the correlation table `table` (the keys of
`t.controlResp`): skip empty lines; route control-response frames to the
slot registered under the response's own `request_id` (dropping them when
no slot is registered); decode conversation frames and push the message;
push any decode failure on the error queue and continue. -/
def processLine (table : List String) (l : Line) : ReadOutput :=
  match l with
  | .empty => ⟨[], [], []⟩
  | _ =>
    if isControlResponseLine l then
      match parseControlResponseLine l with
      | .error e => ⟨[], [e], []⟩
      | .ok resp =>
        if resp.requestId ∈ table then ⟨[], [], [(resp.requestId, resp)]⟩
        else ⟨[], [], []⟩
    else
      match parseStreamMessageLine l with
      | .error e => ⟨[], [e], []⟩
      | .ok sm =>
        match parseMessage sm.type sm.message with
        | .error e => ⟨[], [e], []⟩
        | .ok none => ⟨[], [], []⟩
        | .ok (some m) => ⟨[m], [], []⟩

/-- `transport.readMessages` over a whole inbound stream (no shutdown
signal during the read): process the lines in order and concatenate the
observable effects. -/
def readMessages (table : List String) : List Line → ReadOutput
  | [] => ⟨[], [], []⟩
  | l :: rest => (processLine table l).append (readMessages table rest)

/-- The interrupt timeout of `transport.sendInterrupt`
(`time.After(5 * time.Second)`), in seconds. -/
def interruptTimeoutSeconds : Nat := 5

/-- How the blocking `select` inside `transport.sendInterrupt` resolves:
caller cancellation, a routed control response, or the 5-second timer. -/
inductive InterruptOutcome where
  | ctxDone
  | response (r : ControlResponse)
  | timeout

/-- `transport.sendInterrupt`, state-passing over the correlation table
(the key set of `t.controlResp`): register the fresh request id, resolve
the select, and let the deferred delete remove the registration on every
path before returning. Returns the call's result and the final table. -/
def sendInterrupt (table : List String) (rid : String)
    (outcome : InterruptOutcome) : Except TErr Unit × List String :=
  let registered := rid :: table
  let res : Except TErr Unit :=
    match outcome with
    | .ctxDone => .error .ctxCanceled
    | .response r =>
      if r.success then .ok () else .error (.interruptFailed r.error)
    | .timeout => .error .interruptTimeout
  (res, registered.erase rid)

/-- The part of transport state that `transport.close` teardown touches:
the `done` signal, the channel-closed observables, and the `sync.Once`
guard. `teardowns` counts how many times the teardown body has run. -/
structure TransportState where
  doneClosed : Bool
  messagesClosed : Bool
  errorsClosed : Bool
  onceDone : Bool
  teardowns : Nat
deriving Repr, DecidableEq

/-- Transport state right after a successful spawn. -/
def TransportState.fresh : TransportState :=
  ⟨false, false, false, false, 0⟩

/-- `transport.close`: the whole teardown body runs under
`t.closeOnce.Do`, so it executes at most once; every call returns the
untouched `finalErr`, which is always `nil`. `sync.Once` serializes
concurrent callers, so back-to-back application models any pair of
calls. -/
def closeTransport (s : TransportState) : TransportState × Option TErr :=
  if s.onceDone then (s, none)
  else ({ doneClosed := true, messagesClosed := true, errorsClosed := true,
          onceDone := true, teardowns := s.teardowns + 1 }, none)

/-- `maxStderrSize` (10 MiB cap on captured diagnostics). -/
def maxStderrSize : Nat := 10 * 1024 * 1024

/-- One pass of the body of `transport.readStderr` for a chunk of `n`
read bytes: the chunk is written only when the grown buffer would still
fit under the cap, otherwise the buffer is left unchanged. -/
def appendChunk (buf : List Nat) (chunk : List Nat) : List Nat :=
  if buf.length + chunk.length ≤ maxStderrSize then buf ++ chunk else buf

/-- `transport.readStderr` over a whole sequence of read chunks,
starting from the empty buffer. -/
def readStderrChunks (chunks : List (List Nat)) : List Nat :=
  chunks.foldl appendChunk []

/-- The connection flags of `Client` (`connected`, `closed`), which its
guards read under `c.mu`. -/
structure ClientState where
  connected : Bool
  closed : Bool
deriving Repr, DecidableEq

/-- `NewClient` result: neither connected nor closed. -/
def ClientState.fresh : ClientState := ⟨false, false⟩

/-- The errors the `Client` guards return. -/
inductive ClientErr where
  | alreadyConnected
  | clientClosed
  | notConnected
deriving Repr, DecidableEq

/-- `Client.Connect`: fail when already connected, then when closed;
otherwise spawn the transport and mark the client connected. -/
def clientConnect (c : ClientState) : Except ClientErr ClientState :=
  if c.connected then .error .alreadyConnected
  else if c.closed then .error .clientClosed
  else .ok { c with connected := true }

/-- The guard of `Client.SendMessage`: closed first, then connected. -/
def sendMessageGuard (c : ClientState) : Except ClientErr Unit :=
  if c.closed then .error .clientClosed
  else if ¬c.connected then .error .notConnected
  else .ok ()

/-- The guard of `Client.SendInterrupt` (same order as `SendMessage`). -/
def sendInterruptGuard (c : ClientState) : Except ClientErr Unit :=
  if c.closed then .error .clientClosed
  else if ¬c.connected then .error .notConnected
  else .ok ()

/-- What `Client.StreamMessages` / `Client.ReceiveResponse` hand back
before any message flows: an immediately closed channel when the client
is not connected, otherwise a live stream fed from the transport. -/
inductive StreamStart where
  | closedChannel
  | attached
deriving Repr, DecidableEq

/-- The connection check of `Client.StreamMessages`: not connected means
an immediately closed output channel — no error value exists on this
path. -/
def streamMessagesStart (c : ClientState) : StreamStart :=
  if ¬c.connected then .closedChannel else .attached

/-- The connection check of `Client.ReceiveResponse` (identical). -/
def receiveResponseStart (c : ClientState) : StreamStart :=
  if ¬c.connected then .closedChannel else .attached

/-- The connection check of `Client.WaitForResult`: not connected (which
includes the state after `Close`) is reported as a not-connected error. -/
def waitForResultGuard (c : ClientState) : Except ClientErr Unit :=
  if ¬c.connected then .error .notConnected else .ok ()

/-- `Client.Close`: idempotent; marks the client closed and disconnected
and returns no error (the underlying transport close also returns
`nil`). -/
def clientClose (c : ClientState) : ClientState × Option ClientErr :=
  if c.closed then (c, none)
  else ({ connected := false, closed := true }, none)

/-- Events observed by the `select` loop of the one-shot `Query`: caller
cancellation, the 30-minute timer, an error-queue receive, a
message-queue receive, or completion of `transport.wait()` (carrying its
error, if any). -/
inductive QueryEvent where
  | ctxDone
  | timeoutFired
  | errArrived (e : TErr)
  | msgArrived (m : Message)
  | waitFinished (r : Option TErr)

/-- Failures surfaced by the one-shot `Query`. -/
inductive QErr where
  | ctxCanceled
  | queryTimeout
  | transportErr (e : TErr)
deriving Repr, DecidableEq

/-- The `select` loop of `Query`: accumulate messages (recording the last
`ResultMessage` seen via the value-type assertion), stop with an error on
cancellation/timeout/error-queue/wait failure, and break out of the loop
when `transport.wait()` finishes cleanly. `none` means the loop is still
blocked when the supplied events run out. -/
def queryLoop : List QueryEvent → List Message →
    Option (String × ResultMessageData) →
    Option (Except QErr (List Message × Option (String × ResultMessageData)))
  | [], _, _ => none
  | ev :: rest, acc, res =>
    match ev with
    | .ctxDone => some (.error .ctxCanceled)
    | .timeoutFired => some (.error .queryTimeout)
    | .errArrived e => some (.error (.transportErr e))
    | .msgArrived m =>
      match m with
      | .result role d => queryLoop rest (acc ++ [m]) (some (role, d))
      | _ => queryLoop rest (acc ++ [m]) res
    | .waitFinished (some e) => some (.error (.transportErr e))
    | .waitFinished none => some (.ok (acc, res))

/-- The inner loop over `m.Content` in `Query`: collect the text of each
`TextBlock` via the value-type assertion. -/
def blockTexts : List ContentBlock → List String
  | [] => []
  | b :: rest =>
    match b with
    | .text _ txt => txt :: blockTexts rest
    | _ => blockTexts rest

/-- The stdout-assembly loop of `Query` over `result.Messages`: only the
`*AssistantMessage` arm of the type switch contributes. -/
def queryTextParts : List Message → List String
  | [] => []
  | m :: rest =>
    match m with
    | .assistant _ blocks => blockTexts blocks ++ queryTextParts rest
    | _ => queryTextParts rest

/-- The final `Stdout` assignment of `Query`: `strings.Join(parts, "\n")`
when any part was collected, the zero value `""` otherwise. -/
def queryStdout (msgs : List Message) : String :=
  let parts := queryTextParts msgs
  if parts.length > 0 then String.intercalate "\n" parts else ""

/-- The observable result of the one-shot `Query` (stderr omitted:
diagnostics pass through `collectStderr` unchanged). -/
structure QueryResultM where
  messages : List Message
  result : Option (String × ResultMessageData)
  stdout : String
deriving Repr

/-- `Query` end to end over a run of loop events: run the select loop,
then assemble `Stdout` from the accumulated messages. -/
def queryRun (events : List QueryEvent) : Option (Except QErr QueryResultM) :=
  match queryLoop events [] none with
  | none => none
  | some (.error e) => some (.error e)
  | some (.ok (msgs, res)) => some (.ok ⟨msgs, res, queryStdout msgs⟩)

/-- Modelled from the spec (refinement side of C1): "the newline-join of
those N text strings in the order they were emitted" — every `Text`
content block across all `AssistantTurn` messages, in emission order. -/
def specEmittedTexts (msgs : List Message) : List String :=
  msgs.flatMap fun m =>
    match m with
    | .assistant _ blocks =>
      blocks.filterMap fun b =>
        match b with
        | .text _ txt => some txt
        | _ => none
    | _ => []

/-- The `result.Result` slot update of the `Query` loop: a value-type
`ResultMessage` overwrites the slot, everything else leaves it alone. -/
def updateResultSlot (r : Option (String × ResultMessageData)) (m : Message) :
    Option (String × ResultMessageData) :=
  match m with
  | .result role d => some (role, d)
  | _ => r

lemma queryLoop_msgArrived (msgs : List Message) : ∀ (acc : List Message)
    (res : Option (String × ResultMessageData)),
    queryLoop (msgs.map QueryEvent.msgArrived ++ [QueryEvent.waitFinished none]) acc res =
      some (.ok (acc ++ msgs, msgs.foldl updateResultSlot res)) := by
  induction msgs with
  | nil => intro acc res; simp [queryLoop]
  | cons m rest ih =>
    intro acc res
    cases m <;>
      simp [queryLoop, updateResultSlot, ih, List.foldl_cons]

lemma blockTexts_eq_filterMap (blocks : List ContentBlock) :
    blockTexts blocks = blocks.filterMap fun b =>
      match b with
      | .text _ txt => some txt
      | _ => none := by
  induction blocks with
  | nil => rfl
  | cons b rest ih => cases b <;> simp [blockTexts, List.filterMap_cons, ih]

lemma queryTextParts_eq_spec (msgs : List Message) :
    queryTextParts msgs = specEmittedTexts msgs := by
  induction msgs with
  | nil => rfl
  | cons m rest ih =>
    cases m <;>
      simp [queryTextParts, specEmittedTexts, List.flatMap_cons, ih,
        blockTexts_eq_filterMap]

lemma intercalate_nil_eq : String.intercalate "\n" [] = "" := rfl

lemma queryStdout_eq_join (msgs : List Message) :
    queryStdout msgs = String.intercalate "\n" (specEmittedTexts msgs) := by
  unfold queryStdout
  rw [queryTextParts_eq_spec]
  by_cases h : (specEmittedTexts msgs).length > 0
  · simp [h]
  · have hnil : specEmittedTexts msgs = [] := by
      cases hs : specEmittedTexts msgs with
      | nil => rfl
      | cons a l => rw [hs] at h; simp at h
    simp [hnil, intercalate_nil_eq]

/-- C1: for every run of the one-shot `Query` in which the child emits a
sequence of conversation messages and then `transport.wait()` finishes
cleanly, the returned `Stdout` equals the newline-join of the texts of
every `Text` content block across the `AssistantTurn` messages, in
emission order (and hence is empty when there are none); the full
message list and the last `ResultMessage` are returned alongside. -/
theorem query_stdout_joins_assistant_texts (msgs : List Message) :
    queryRun (msgs.map QueryEvent.msgArrived ++ [QueryEvent.waitFinished none]) =
      some (.ok ⟨msgs, msgs.foldl updateResultSlot none,
        String.intercalate "\n" (specEmittedTexts msgs)⟩) := by
  simp [queryRun, queryLoop_msgArrived, queryStdout_eq_join]

lemma processLine_control_messages (table : List String) (l : Line)
    (h : isControlResponseLine l = true) :
    (processLine table l).messages = [] := by
  cases l with
  | empty => rfl
  | malformed raw =>
    simp only [processLine, h, if_true]
    cases parseControlResponseLine (.malformed raw) with
    | error e => rfl
    | ok resp => by_cases hr : resp.requestId ∈ table <;> simp [hr]
  | json v =>
    simp only [processLine, h, if_true]
    cases parseControlResponseLine (.json v) with
    | error e => rfl
    | ok resp => by_cases hr : resp.requestId ∈ table <;> simp [hr]

lemma processLine_deliveries_matched (table : List String) (l : Line) :
    ((processLine table l).deliveries.all fun p =>
      p.1 == p.2.requestId && table.contains p.1) = true := by
  cases l with
  | empty => rfl
  | malformed raw =>
    simp only [processLine]
    by_cases h : isControlResponseLine (.malformed raw)
    · simp only [h, if_true]
      cases parseControlResponseLine (.malformed raw) with
      | error e => rfl
      | ok resp =>
        by_cases hr : resp.requestId ∈ table <;>
          simp [hr, List.contains, List.elem_eq_mem]
    · simp only [h]
      cases hs : parseStreamMessageLine (.malformed raw) with
      | error e => simp
      | ok sm =>
        cases hm : parseMessage sm.type sm.message with
        | error e => simp [hs, hm]
        | ok mo => cases mo <;> simp [hs, hm]
  | json v =>
    simp only [processLine]
    by_cases h : isControlResponseLine (.json v)
    · simp only [h, if_true]
      cases parseControlResponseLine (.json v) with
      | error e => rfl
      | ok resp =>
        by_cases hr : resp.requestId ∈ table <;>
          simp [hr, List.contains, List.elem_eq_mem]
    · simp only [h]
      cases hs : parseStreamMessageLine (.json v) with
      | error e => simp
      | ok sm =>
        cases hm : parseMessage sm.type sm.message with
        | error e => simp [hs, hm]
        | ok mo => cases mo <;> simp [hs, hm]

/-- C2: for every interleaving of control-response frames and
conversation frames on the child's output stream, the conversation
message queue receives exactly what it would receive with the
control-response frames deleted from the stream (so consumers never
observe one), and every control-response delivery goes to the slot
registered in the correlation table under the response's own
`request_id` — matching is by identifier, never by arrival order. -/
theorem control_frames_invisible_and_matched_by_id
    (lines : List Line) (table : List String) :
    (readMessages table lines).messages =
      (readMessages table (lines.filter fun l => !isControlResponseLine l)).messages ∧
    ((readMessages table lines).deliveries.all fun p =>
      p.1 == p.2.requestId && table.contains p.1) = true := by
  induction lines with
  | nil => exact ⟨rfl, rfl⟩
  | cons l rest ih =>
    constructor
    · by_cases h : isControlResponseLine l
      · simpa [List.filter_cons, h, readMessages, ReadOutput.append,
          processLine_control_messages table l h] using ih.1
      · simp [List.filter_cons, h, readMessages, ReadOutput.append, ih.1]
    · have hl := processLine_deliveries_matched table l
      simp only [readMessages, ReadOutput.append]
      rw [List.all_append, Bool.and_eq_true]
      exact ⟨hl, ih.2⟩

lemma processLine_malformed (table : List String) (raw : String) :
    processLine table (.malformed raw) = ⟨[], [.cliJsonDecode raw], []⟩ := rfl

/-- C3: a malformed (non-JSON) line sitting between two well-formed
conversation frames produces exactly one decode error on the error
queue, both surrounding frames are still decoded and delivered to the
message queue in their original order, and the reader keeps processing
whatever follows — a decode failure never terminates it. -/
theorem malformed_line_isolated (table : List String) (v1 v2 : Json)
    (raw : String) (m1 m2 : Message) (extra : List Line)
    (h1 : processLine table (.json v1) = ⟨[m1], [], []⟩)
    (h2 : processLine table (.json v2) = ⟨[m2], [], []⟩) :
    readMessages table ([.json v1, .malformed raw, .json v2] ++ extra) =
      ReadOutput.append ⟨[m1, m2], [.cliJsonDecode raw], []⟩
        (readMessages table extra) := by
  simp [readMessages, ReadOutput.append, h1, h2, processLine_malformed]

/-- Wire frame used by concrete scenarios: an assistant turn carrying one
text block. -/
def sampleAssistantFrame : Json :=
  .obj [("type", .str "assistant"),
        ("message", .obj [("role", .str "assistant"),
          ("content", .arr [.obj [("type", .str "text"),
            ("text", .str "Reply to: Hi")]])])]

/-- The message the sample assistant frame decodes to. -/
def sampleAssistantMsg : Message :=
  .assistant "assistant" [.text "text" "Reply to: Hi"]

/-- Wire frame used by concrete scenarios: a system "thinking" notice. -/
def sampleSystemFrame : Json :=
  .obj [("type", .str "system"),
        ("message", .obj [("role", .str "system"),
          ("subtype", .str "thinking")])]

/-- The message the sample system frame decodes to. -/
def sampleSystemMsg : Message :=
  .system "system" "thinking" none

/-- C3 witness: the spec scenario — the line `not json` between two valid
frames yields one `FrameDecodeError` and both frames in order. -/
theorem malformed_line_isolated_witness :
    readMessages []
        ([.json sampleAssistantFrame, .malformed "not json",
          .json sampleSystemFrame] ++ []) =
      ReadOutput.append
        ⟨[sampleAssistantMsg, sampleSystemMsg],
          [.cliJsonDecode "not json"], []⟩
        (readMessages [] []) :=
  malformed_line_isolated [] sampleAssistantFrame sampleSystemFrame
    "not json" sampleAssistantMsg sampleSystemMsg [] (by rfl) (by rfl)

/-- C4: a `sendInterrupt` whose control request receives no response
fails with the timeout error after the fixed 5-second window, and on
every outcome — cancellation, success response, failure response, or
timeout — the deferred delete removes the pending registration from the
correlation table before the call returns, leaving the table exactly as
it was (no slot leaks for a fresh request identifier). -/
theorem sendInterrupt_timeout_and_no_slot_leak (table : List String)
    (rid : String) (outcome : InterruptOutcome) (hfresh : rid ∉ table) :
    (sendInterrupt table rid outcome).2 = table ∧
    rid ∉ (sendInterrupt table rid outcome).2 ∧
    (sendInterrupt table rid .timeout).1 = .error .interruptTimeout ∧
    interruptTimeoutSeconds = 5 := by
  have herase : (rid :: table).erase rid = table := List.erase_cons_head rid table
  refine ⟨?_, ?_, rfl, rfl⟩
  · simp [sendInterrupt, herase]
  · simp [sendInterrupt, herase, hfresh]

/-- C4 witness: an interrupt request registered in an empty table that
never receives a response. -/
theorem sendInterrupt_timeout_witness :
    (sendInterrupt [] "req_1_77" .timeout).2 = [] ∧
    "req_1_77" ∉ (sendInterrupt [] "req_1_77" .timeout).2 ∧
    (sendInterrupt [] "req_1_77" .timeout).1 = .error .interruptTimeout ∧
    interruptTimeoutSeconds = 5 :=
  sendInterrupt_timeout_and_no_slot_leak [] "req_1_77" .timeout
    (List.not_mem_nil "req_1_77")

/-- C5: `transport.close` is idempotent and safe to call twice: on a
transport whose `sync.Once` has not yet fired, the first call runs the
teardown exactly once (the `sync.Once` primitive serializes concurrent
callers onto this same path), the second call changes nothing, both
calls return no error, and after the first call returns the inbound
message queue and the error queue are both observably closed. -/
theorem close_idempotent_one_teardown (s : TransportState)
    (h : s.onceDone = false) :
    (closeTransport s).2 = none ∧
    (closeTransport (closeTransport s).1).2 = none ∧
    (closeTransport (closeTransport s).1).1 = (closeTransport s).1 ∧
    (closeTransport s).1.teardowns = s.teardowns + 1 ∧
    (closeTransport (closeTransport s).1).1.teardowns = s.teardowns + 1 ∧
    (closeTransport s).1.messagesClosed = true ∧
    (closeTransport s).1.errorsClosed = true := by
  simp [closeTransport, h]

/-- C5 witness: closing a freshly spawned transport twice. -/
theorem close_idempotent_witness :
    (closeTransport TransportState.fresh).2 = none ∧
    (closeTransport (closeTransport TransportState.fresh).1).2 = none ∧
    (closeTransport (closeTransport TransportState.fresh).1).1 =
      (closeTransport TransportState.fresh).1 ∧
    (closeTransport TransportState.fresh).1.teardowns =
      TransportState.fresh.teardowns + 1 ∧
    (closeTransport (closeTransport TransportState.fresh).1).1.teardowns =
      TransportState.fresh.teardowns + 1 ∧
    (closeTransport TransportState.fresh).1.messagesClosed = true ∧
    (closeTransport TransportState.fresh).1.errorsClosed = true :=
  close_idempotent_one_teardown TransportState.fresh (by rfl)

/-- C6 counterexample: diagnostic reads totaling more than 10 MiB where
the captured buffer keeps the OLDEST bytes, refuting the claim that the
most recent bytes are retained: after a full 10 MiB of zeros followed by
one more byte `1`, the drained buffer is exactly the initial zeros and
the newest byte is absent (so the drain is not a suffix of the output
ending at its latest byte). -/
theorem stderr_counterexample_oldest_retained :
    maxStderrSize <
      (List.replicate maxStderrSize 0 ++ [1]).length ∧
    readStderrChunks [List.replicate maxStderrSize 0, [1]] =
      List.replicate maxStderrSize 0 ∧
    1 ∉ readStderrChunks [List.replicate maxStderrSize 0, [1]] := by
  have hlen : (List.replicate maxStderrSize (0 : Nat)).length = maxStderrSize :=
    List.length_replicate maxStderrSize 0
  have hfits : (([] : List Nat)).length +
      (List.replicate maxStderrSize (0 : Nat)).length ≤ maxStderrSize := by
    have h : (([] : List Nat)).length +
        (List.replicate maxStderrSize (0 : Nat)).length = maxStderrSize := by
      rw [List.length_nil, hlen, Nat.zero_add]
    exact le_of_eq h
  have hstep1 : appendChunk [] (List.replicate maxStderrSize 0) =
      List.replicate maxStderrSize 0 := by
    unfold appendChunk
    rw [if_pos hfits, List.nil_append]
  have hnofit : ¬ ((List.replicate maxStderrSize (0 : Nat)).length +
      ([1] : List Nat).length ≤ maxStderrSize) := by
    rw [hlen, List.length_cons, List.length_nil]
    omega
  have hstep2 : appendChunk (List.replicate maxStderrSize 0) [1] =
      List.replicate maxStderrSize 0 := by
    unfold appendChunk
    rw [if_neg hnofit]
  have hrun : readStderrChunks [List.replicate maxStderrSize 0, [1]] =
      List.replicate maxStderrSize 0 := by
    unfold readStderrChunks
    rw [List.foldl_cons, List.foldl_cons, List.foldl_nil, hstep1, hstep2]
  refine ⟨?_, hrun, ?_⟩
  · rw [List.length_append, hlen, List.length_cons, List.length_nil]
    omega
  · rw [hrun]
    exact fun h => absurd (List.eq_of_mem_replicate h) one_ne_zero

/-- C6 amended: once adding a read chunk would push the diagnostic
buffer past the 10 MiB cap, that chunk — the NEWEST bytes — is dropped
silently in its entirety and the buffer is left unchanged, so the
captured diagnostics retain the oldest bytes of the child's output, not
the most recent ones. -/
theorem stderr_overflow_drops_newest_chunk (buf chunk : List Nat)
    (h : maxStderrSize < buf.length + chunk.length) :
    appendChunk buf chunk = buf := by
  unfold appendChunk
  rw [if_neg (by omega)]

/-- C6 amended witness: a full buffer followed by one more byte. -/
theorem stderr_overflow_drops_newest_chunk_witness :
    appendChunk (List.replicate maxStderrSize 0) [1] =
      List.replicate maxStderrSize 0 :=
  stderr_overflow_drops_newest_chunk (List.replicate maxStderrSize 0) [1]
    (by rw [List.length_replicate, List.length_cons, List.length_nil]; omega)

lemma appendChunk_length_le (buf chunk : List Nat)
    (h : buf.length ≤ maxStderrSize) :
    (appendChunk buf chunk).length ≤ maxStderrSize := by
  unfold appendChunk
  by_cases hc : buf.length + chunk.length ≤ maxStderrSize
  · rw [if_pos hc, List.length_append]
    exact hc
  · rw [if_neg hc]
    exact h

lemma foldl_appendChunk_length_le (chunks : List (List Nat)) :
    ∀ buf : List Nat, buf.length ≤ maxStderrSize →
      (chunks.foldl appendChunk buf).length ≤ maxStderrSize := by
  induction chunks with
  | nil => intro buf h; simpa using h
  | cons c rest ih =>
    intro buf h
    simpa [List.foldl_cons] using ih (appendChunk buf c) (appendChunk_length_le buf c h)

/-- C9: invariant kept by every stderr read — the diagnostic buffer never
exceeds the 10 MiB cap, and a read chunk whose addition would push the
total past the cap is discarded in its entirety, leaving the buffer
unchanged by that read. -/
theorem stderr_buffer_never_exceeds_cap (chunks : List (List Nat))
    (buf chunk : List Nat) (hover : maxStderrSize < buf.length + chunk.length) :
    (readStderrChunks chunks).length ≤ maxStderrSize ∧
    appendChunk buf chunk = buf := by
  constructor
  · exact foldl_appendChunk_length_le chunks [] (by simp [maxStderrSize])
  · unfold appendChunk
    rw [if_neg (by omega)]

/-- C9 witness: one over-cap read against an already full buffer. -/
theorem stderr_buffer_never_exceeds_cap_witness :
    (readStderrChunks [[2], [3]]).length ≤ maxStderrSize ∧
    appendChunk (List.replicate maxStderrSize 4) [5] =
      List.replicate maxStderrSize 4 :=
  stderr_buffer_never_exceeds_cap [[2], [3]]
    (List.replicate maxStderrSize 4) [5]
    (by rw [List.length_replicate, List.length_cons, List.length_nil]; omega)

/-- C7 counterexample: the claim that EVERY interactive operation
invoked while Unconnected fails with a not-connected error, and every
operation after Close fails with a closed error, is false on the code:
`StreamMessages` on a fresh (unconnected) client hands back an
immediately closed channel — the `StreamStart` type of that path has no
error at all — and `WaitForResult` on a closed client reports the
not-connected error, not the closed one. -/
theorem client_state_machine_counterexample :
    streamMessagesStart ClientState.fresh = .closedChannel ∧
    receiveResponseStart ClientState.fresh = .closedChannel ∧
    waitForResultGuard ⟨false, true⟩ = .error .notConnected := by
  exact ⟨rfl, rfl, rfl⟩

/-- C7 amended: the `Client` state machine as the code enforces it —
`Connect` from Connected fails already-connected and from Closed fails
closed; `SendMessage` and `SendInterrupt` fail closed after `Close` and
not-connected while Unconnected; `WaitForResult` fails not-connected
whenever the client is not connected (including after `Close`); and the
channel-returning operations `StreamMessages` / `ReceiveResponse`
return an immediately closed channel, not an error, whenever the client
is not connected. -/
theorem client_state_machine_amended (c : ClientState) :
    (c.connected = true → clientConnect c = .error .alreadyConnected) ∧
    (c.connected = false → c.closed = true →
      clientConnect c = .error .clientClosed) ∧
    (c.closed = true → sendMessageGuard c = .error .clientClosed ∧
      sendInterruptGuard c = .error .clientClosed) ∧
    (c.closed = false → c.connected = false →
      sendMessageGuard c = .error .notConnected ∧
      sendInterruptGuard c = .error .notConnected) ∧
    (c.connected = false → streamMessagesStart c = .closedChannel ∧
      receiveResponseStart c = .closedChannel ∧
      waitForResultGuard c = .error .notConnected) ∧
    (clientClose c).2 = none := by
  obtain ⟨conn, cl⟩ := c
  cases conn <;> cases cl <;>
    simp [clientConnect, sendMessageGuard, sendInterruptGuard,
      streamMessagesStart, receiveResponseStart, waitForResultGuard,
      clientClose]

/-- C7 amended witness: the state right after `Close` and the fresh
state exercise every guard. -/
theorem client_state_machine_amended_witness :
    (sendMessageGuard ⟨false, true⟩ = .error .clientClosed ∧
      sendInterruptGuard ⟨false, true⟩ = .error .clientClosed) ∧
    clientConnect ⟨false, true⟩ = .error .clientClosed ∧
    (sendMessageGuard ⟨false, false⟩ = .error .notConnected ∧
      sendInterruptGuard ⟨false, false⟩ = .error .notConnected) ∧
    clientConnect ⟨true, false⟩ = .error .alreadyConnected ∧
    (streamMessagesStart ⟨false, true⟩ = .closedChannel ∧
      receiveResponseStart ⟨false, true⟩ = .closedChannel ∧
      waitForResultGuard ⟨false, true⟩ = .error .notConnected) :=
  ⟨(client_state_machine_amended ⟨false, true⟩).2.2.1 rfl,
    (client_state_machine_amended ⟨false, true⟩).2.1 rfl rfl,
    (client_state_machine_amended ⟨false, false⟩).2.2.2.1 rfl rfl,
    (client_state_machine_amended ⟨true, false⟩).1 rfl,
    (client_state_machine_amended ⟨false, true⟩).2.2.2.2.1 rfl⟩

/-- C8: an inbound conversation frame whose `message` payload is absent,
the literal `null`, or the empty object produces no message and no
error — nothing reaches the inbound message queue or the error queue,
for every non-control frame type and every correlation table. -/
theorem empty_payload_produces_nothing (ty : String) (table : List String)
    (h : ty ≠ "control_response") :
    processLine table (.json (.obj [("type", .str ty)])) = ⟨[], [], []⟩ ∧
    processLine table (.json (.obj [("type", .str ty), ("message", .null)])) =
      ⟨[], [], []⟩ ∧
    processLine table
        (.json (.obj [("type", .str ty), ("message", .obj [])])) =
      ⟨[], [], []⟩ := by
  refine ⟨?_, ?_, ?_⟩ <;>
    simp [processLine, isControlResponseLine, Line.unmarshalled,
      isControlResponseJson, Json.asObjFields, strField, Json.getField,
      Except.instMonad, Except.bind, h, parseStreamMessageLine, anyField,
      parseMessage, payloadEmpty]

/-- C8 witness: an `assistant` keep-alive frame in all three payload
shapes. -/
theorem empty_payload_produces_nothing_witness :
    processLine [] (.json (.obj [("type", .str "assistant")])) = ⟨[], [], []⟩ ∧
    processLine []
        (.json (.obj [("type", .str "assistant"), ("message", .null)])) =
      ⟨[], [], []⟩ ∧
    processLine []
        (.json (.obj [("type", .str "assistant"), ("message", .obj [])])) =
      ⟨[], [], []⟩ :=
  empty_payload_produces_nothing "assistant" [] (by decide)

lemma decodeBlocks_append (xs ys : List Json) :
    decodeBlocks (xs ++ ys) = decodeBlocks xs ++ decodeBlocks ys := by
  induction xs with
  | nil => rfl
  | cons x rest ih =>
    simp only [List.cons_append, decodeBlocks]
    cases decodeBlock x <;> simp [ih]

lemma decodeBlocks_eq_filterMap (raws : List Json) :
    decodeBlocks raws = raws.filterMap decodeBlock := by
  induction raws with
  | nil => rfl
  | cons x rest ih =>
    simp only [decodeBlocks, List.filterMap_cons]
    cases decodeBlock x <;> simp [ih]

/-- C10: decoding an assistant message payload never fails because of an
individual content block — a block whose discriminator is unknown or
whose JSON does not match the block shape (`decodeBlock` yields `none`)
is silently omitted, the whole decode still succeeds, and the blocks
that do decode keep their original relative order (the result is the
order-preserving `filterMap` of the per-block decoder). -/
theorem assistant_decode_skips_bad_blocks (role : String)
    (pre post : List Json) (bad : Json) (h : decodeBlock bad = none) :
    decodeAssistantMessage
        (.obj [("role", .str role), ("content", .arr (pre ++ bad :: post))]) =
      .ok (.assistant role (decodeBlocks pre ++ decodeBlocks post)) ∧
    decodeBlocks (pre ++ bad :: post) =
      (pre ++ post).filterMap decodeBlock := by
  have hmid : decodeBlocks (pre ++ bad :: post) =
      decodeBlocks pre ++ decodeBlocks post := by
    rw [decodeBlocks_append]
    simp [decodeBlocks, h]
  constructor
  · simp [decodeAssistantMessage, Json.asObjFields, strField, rawArrField,
      Json.getField, Except.instMonad, Except.bind, hmid]
  · rw [hmid, List.filterMap_append, decodeBlocks_eq_filterMap,
      decodeBlocks_eq_filterMap]

/-- C10 witness: a text block, an unknown `image` block, and a tool-use
block — the unknown block is dropped, the others survive in order. -/
theorem assistant_decode_skips_bad_blocks_witness :
    decodeAssistantMessage
        (.obj [("role", .str "assistant"),
          ("content", .arr
            ([.obj [("type", .str "text"), ("text", .str "Hello")]] ++
              .obj [("type", .str "image")] ::
                [.obj [("type", .str "tool_use"), ("id", .str "t1"),
                  ("name", .str "calc"), ("input", .obj [])]]))]) =
      .ok (.assistant "assistant"
        (decodeBlocks [.obj [("type", .str "text"), ("text", .str "Hello")]] ++
          decodeBlocks [.obj [("type", .str "tool_use"), ("id", .str "t1"),
            ("name", .str "calc"), ("input", .obj [])]])) ∧
    decodeBlocks
        ([.obj [("type", .str "text"), ("text", .str "Hello")]] ++
          .obj [("type", .str "image")] ::
            [.obj [("type", .str "tool_use"), ("id", .str "t1"),
              ("name", .str "calc"), ("input", .obj [])]]) =
      ([.obj [("type", .str "text"), ("text", .str "Hello")],
        .obj [("type", .str "tool_use"), ("id", .str "t1"),
          ("name", .str "calc"), ("input", .obj [])]] :
        List Json).filterMap decodeBlock :=
  assistant_decode_skips_bad_blocks "assistant"
    [.obj [("type", .str "text"), ("text", .str "Hello")]]
    [.obj [("type", .str "tool_use"), ("id", .str "t1"),
      ("name", .str "calc"), ("input", .obj [])]]
    (.obj [("type", .str "image")]) (by rfl)

end GoClaude
